import Mathlib

/-!
Verification development for the idaas-auth-js client-side authentication
engine.  The definitions below are shallow embeddings of the TypeScript
source: token selection and purge (`IdaasClient.getAccessToken`,
`IdaasClient.removeUnusableTokens`), redirect callback handling
(`OidcClient.handleRedirect`, `validateAuthorizeResponse`), scope string
construction (`generateAuthorizationUrl`), the RBA completion path
(`RbaClient.submitChallenge` / `poll` /
`IdaasContext.handleAuthenticationTransactionSuccess`), the userinfo sub
check (`IdaasClient.getUserInfo`) and the PKCE value generation of
`dist/IdaasClient.js` (`createRandomString`, `sha256` plumbing,
`bufferToBase64UrlEncoded`, `authenticate`).

Machine integers are modelled as `Int`/`Nat`; epoch times are `Int`
seconds (or milliseconds where the source uses `Date.now()`).  Network
calls and platform crypto are oracle parameters.  JavaScript truthiness
on strings and numbers (`""` and `0` are falsy) is modelled explicitly
where the source branches on it.
-/

namespace Idaas

/-- JavaScript `s.split(" ")` on the character list of a string: split on
every single space, keeping empty fragments, with `""` splitting to
`[""]`. -/
def splitSpaces : List Char → List String
  | [] => [""]
  | c :: cs =>
    match splitSpaces cs, c with
    | rest, ' ' => "" :: rest
    | [], c => [String.mk [c]]
    | r :: rs, c => String.mk (c :: r.data) :: rs

/-- `scope.split(" ")` from the source, as a list of words. -/
def words (s : String) : List String := splitSpaces s.data

/-- JS truthiness of a possibly-absent string: `undefined` and `""` are
falsy. -/
def truthyStr : Option String → Bool
  | some s => s ≠ ""
  | none => false

/-- JS truthiness of a possibly-absent number: `undefined` and `0` are
falsy. -/
def truthyInt : Option Int → Bool
  | some n => n ≠ 0
  | none => false

/-- `calculateEpochExpiry` from `utils/format.ts`: the sum of the
`expires_in` / `max_age` duration and the authentication time, with the
latter defaulting to the current epoch second when absent. -/
def calculateEpochExpiry (expiresIn : Int) (authTime : Option Int) (nowS : Int) : Int :=
  expiresIn + authTime.getD nowS

/-- One stored access-token record (`AccessToken` of
`storage/StorageManager.ts`). -/
structure AccessToken where
  accessToken : String
  refreshToken : Option String
  scope : String
  audience : Option String
  acr : Option String
  expiresAt : Int
  maxAgeExpiry : Option Int
deriving DecidableEq, Repr

/-- The stored identity token (`IdToken` record): encoded JWT plus its
decoded claims; only the `sub` claim matters to the embedded code, the
remaining claims are carried opaquely. -/
structure Claims where
  sub : Option String
  extra : List (String × String)
deriving DecidableEq, Repr

structure IdTokenRec where
  encoded : String
  decoded : Claims
deriving DecidableEq, Repr

/-- The persisted `ClientFlowState` (`ClientParams`): created by
`loginWithRedirect`, read back by `handleRedirect`. -/
structure ClientParams where
  nonce : String
  state : String
  codeVerifier : String
  redirectUri : String
deriving DecidableEq, Repr

/-- The persisted `TokenParams` written when an authorization URL is
generated. -/
structure TokenParams where
  audience : Option String
  scope : String
  maxAge : Option Int
deriving DecidableEq, Repr

/-- Modelled from the spec: `StorageManager.ts` is not among the source
files (only its unit tests and callers are), so the store is modelled per
the spec's CredentialStore contract (`get`/`save`/`delete` on a plain
key-value store) and the StorageManager unit tests: access tokens form a
list, the other three slots hold at most one value. -/
structure Storage where
  accessTokens : List AccessToken
  idToken : Option IdTokenRec
  clientParams : Option ClientParams
  tokenParams : Option TokenParams
deriving DecidableEq, Repr

/-- Modelled from the spec: `StorageManager.saveAccessToken` appends a
record (the tests show insertion order is preserved). -/
def saveAccessToken (s : Storage) (t : AccessToken) : Storage :=
  { s with accessTokens := s.accessTokens ++ [t] }

/-- Modelled from the spec: `StorageManager.removeAccessToken` deletes
the records equal to the given one and is a no-op when absent. -/
def removeAccessToken (s : Storage) (t : AccessToken) : Storage :=
  { s with accessTokens := s.accessTokens.filter (fun u => u ≠ t) }

/-- Modelled from the spec: `StorageManager.saveIdToken` overwrites the
single identity-token slot. -/
def saveIdToken (s : Storage) (t : IdTokenRec) : Storage :=
  { s with idToken := some t }

/-- Modelled from the spec: `StorageManager.removeTokenParams` clears the
token-params slot. -/
def removeTokenParams (s : Storage) : Storage :=
  { s with tokenParams := none }

/-- The refresh/delete buffer of `IdaasClient` (`const buffer = 15`,
seconds). -/
def buffer : Int := 15

/-- First branch of the loop in `IdaasClient.removeUnusableTokens`:
`if (token.maxAgeExpiry) { if (now > token.maxAgeExpiry - buffer) ... }`.
JS truthiness makes a stored `maxAgeExpiry` of `0` skip the check. -/
def maxAgeRemovable (nowS : Int) (t : AccessToken) : Bool :=
  match t.maxAgeExpiry with
  | some m => decide (m ≠ 0) && decide (nowS > m - buffer)
  | none => false

/-- Second branch of the loop in `IdaasClient.removeUnusableTokens`:
`if (now > token.expiresAt - buffer) { if (!token.refreshToken) ... }` —
`!token.refreshToken` is true for an absent *or empty* refresh token. -/
def expiryRemovable (nowS : Int) (t : AccessToken) : Bool :=
  decide (nowS > t.expiresAt - buffer) && !(truthyStr t.refreshToken)

def unusable (nowS : Int) (t : AccessToken) : Bool :=
  maxAgeRemovable nowS t || expiryRemovable nowS t

/-- `IdaasClient.removeUnusableTokens`: purge every stored record hit by
one of the two removal branches. -/
def removeUnusableTokens (nowS : Int) (s : Storage) : Storage :=
  { s with accessTokens := s.accessTokens.filter (fun t => !(unusable nowS t)) }

/-- `requestedScopes.every((scope) => tokenScopes.includes(scope))` from
`getAccessToken`. -/
def hasAllScopes (requested : List String) (t : AccessToken) : Bool :=
  requested.all (fun sc => (words t.scope).contains sc)

/-- The ACR filter of `getAccessToken`: `if (token.acr) { return
acrValues.includes(token.acr); } return false;` — the truthiness guard
makes an absent *or empty* `acr` fail the filter. -/
def acrMatches (acrValues : List String) (t : AccessToken) : Bool :=
  match t.acr with
  | some a => decide (a ≠ "") && acrValues.contains a
  | none => false

/-- The three candidate filters of `getAccessToken` (audience equality,
scope superset, then — only when `acrValues` is non-empty — ACR
membership). -/
def candidates (tokens : List AccessToken) (audience : Option String)
    (requested : List String) (acrValues : List String) : List AccessToken :=
  let t1 := tokens.filter (fun t => decide (t.audience = audience))
  let t2 := t1.filter (hasAllScopes requested)
  if acrValues.isEmpty then t2 else t2.filter (acrMatches acrValues)

/-- `token.scope.split(" ").length`, the sort key of `getAccessToken`. -/
def scopeCount (t : AccessToken) : Nat := (words t.scope).length

/-- The comparator `token1.scope.split(" ").length -
token2.scope.split(" ").length`, as the corresponding ordering. -/
def scopeLE (a b : AccessToken) : Prop := scopeCount a ≤ scopeCount b

instance : DecidableRel scopeLE := fun a b => Nat.decLe (scopeCount a) (scopeCount b)

instance : IsTotal AccessToken scopeLE := ⟨fun a b => Nat.le_total (scopeCount a) (scopeCount b)⟩

instance : IsTrans AccessToken scopeLE := ⟨fun _ _ _ hab hbc => Nat.le_trans hab hbc⟩

/-- The stable ascending sort by scope cardinality of `getAccessToken`
(JS `Array.prototype.sort` is stable; insertion sort models it). -/
def sortTokens (l : List AccessToken) : List AccessToken := l.insertionSort scopeLE

/-- `accessTokens[0]` after filtering and sorting: the record
`getAccessToken` examines. -/
def selectedCandidate (tokens : List AccessToken) (audience : Option String)
    (requested : List String) (acrValues : List String) : Option AccessToken :=
  (sortTokens (candidates tokens audience requested acrValues)).head?

/-- Token-endpoint response shape used by the refresh grant. -/
structure TokenResponse where
  access_token : String
  refresh_token : Option String
  expires_in : Int
deriving DecidableEq, Repr

/-- Outcome of one `getAccessToken` call, distinguishing each exit of the
source. -/
inductive GetTokenResult where
  | token (accessToken : String)
  | refreshed (accessToken : String)
  | refreshFailed (e : String)
  | notRemovedError
  | fallbackLogin
  | notFound
deriving DecidableEq, Repr

/-- `IdaasClient.getAccessToken`.  `refresh` is the
`requestTokenUsingRefreshToken` network oracle (`.error` models the
request throwing), `authTimeOf` models
`readAccessToken(token)?.auth_time`, `nowMs` is `Date.now()` and
`hasFallback` whether `fallbackAuthorizationOptions` was passed.  An
absent or empty (falsy) refresh token on an expired selected record
raises the internal-consistency error, mirroring
`if (!refreshToken) throw`.  Returns the outcome together with the final
storage. -/
def getAccessToken (refresh : String → Except String TokenResponse)
    (authTimeOf : String → Option Int) (nowMs : Int) (audience : Option String)
    (scope : String) (acrValues : List String) (hasFallback : Bool)
    (s : Storage) : GetTokenResult × Storage :=
  let s1 := removeUnusableTokens (Int.fdiv nowMs 1000) s
  let requested := words scope
  match selectedCandidate s1.accessTokens audience requested acrValues with
  | some rt =>
    if (rt.expiresAt - buffer) * 1000 > nowMs then
      (.token rt.accessToken, s1)
    else
      match rt.refreshToken with
      | none => (.notRemovedError, s1)
      | some rtok =>
        if rtok = "" then (.notRemovedError, s1)
        else
          match refresh rtok with
          | .error e => (.refreshFailed e, s1)
          | .ok resp =>
            let newExp := calculateEpochExpiry resp.expires_in
              (authTimeOf resp.access_token) (Int.fdiv nowMs 1000)
            let newTok : AccessToken :=
              { accessToken := resp.access_token
                refreshToken := resp.refresh_token
                expiresAt := newExp
                audience := rt.audience
                scope := rt.scope
                acr := rt.acr
                maxAgeExpiry := none }
            (.refreshed resp.access_token, saveAccessToken (removeAccessToken s1 rt) newTok)
  | none => if hasFallback then (.fallbackLogin, s1) else (.notFound, s1)

/-! ### Scope construction (`generateAuthorizationUrl`, `helpers/url.ts`) -/

/-- `[...new Set(arr)]`: JS `Set` iteration order is insertion order, so
spreading a set de-duplicates keeping each element's first insertion. -/
def jsSetDedup (l : List String) : List String :=
  l.foldl (fun acc x => if acc.contains x then acc else acc ++ [x]) []

/-- De-duplication keeping the first occurrence, stated the way the spec
words it: keep the head, drop its later duplicates, recurse. -/
def dedupFirst (l : List String) : List String :=
  match l with
  | [] => []
  | x :: xs => x :: dedupFirst (xs.filter (fun y => y ≠ x))
termination_by l.length
decreasing_by
  simp only [List.length_cons]
  exact Nat.lt_succ_of_le (List.length_filter_le _ xs)

/-- The scope list `generateAuthorizationUrl` builds before joining:
`(options.scope || "").split(" ").filter(Boolean)` plus `"openid"` plus
`"offline_access"` when a refresh token is requested. -/
def scopeListRaw (scope : String) (useRefreshToken : Bool) : List String :=
  ((words scope).filter (fun w => w ≠ "")) ++ ["openid"] ++
    (if useRefreshToken then ["offline_access"] else [])

/-- `usedScope` of `generateAuthorizationUrl`: the raw list de-duplicated
through a JS `Set` and joined with single spaces. -/
def usedScope (scope : String) (useRefreshToken : Bool) : String :=
  String.intercalate (" ") (jsSetDedup (scopeListRaw scope useRefreshToken))

/-! ### Redirect callback handling (`OidcClient.handleRedirect`) -/

/-- The authorization response parameters read from the callback URL. -/
structure AuthorizeResponse where
  code : Option String
  state : Option String
  error : Option String
  error_description : Option String
deriving DecidableEq, Repr

/-- `parseRedirect` / `parseLoginRedirect` of `helpers/url.ts`: `none`
when the URL carries no query parameters, no truthy `state`, or neither a
truthy `code` nor a truthy `error`.  `hasAnyParams` models
`searchParams.toString() !== ""`. -/
def parseRedirect (hasAnyParams : Bool) (state code error errDesc : Option String) :
    Option AuthorizeResponse :=
  if !hasAnyParams then none
  else if !(truthyStr state) then none
  else if !(truthyStr code || truthyStr error) then none
  else some { code := code, state := state, error := error, error_description := errDesc }

/-- The ways `validateAuthorizeResponse` can throw. -/
inductive AuthorizeError where
  | authorizationError (desc : Option String)
  | missingStateOrCode
  | stateMismatch
deriving DecidableEq, Repr

/-- `validateAuthorizeResponse` of `helpers/url.ts`: provider `error`
first, then presence of `code` and `state`, then the state comparison;
returns the authorization code. -/
def validateAuthorizeResponse (r : AuthorizeResponse) (expectedState : String) :
    Except AuthorizeError String :=
  if truthyStr r.error then .error (.authorizationError r.error_description)
  else if !(truthyStr r.code && truthyStr r.state) then .error .missingStateOrCode
  else
    match r.code, r.state with
    | some c, some st =>
      if expectedState ≠ st then .error .stateMismatch else .ok c
    | _, _ => .error .missingStateOrCode

/-- Everything `handleRedirect` can do up to (and excluding) the
code-for-token exchange; `exchange` is reached only when the stored state
validates, carrying the arguments of `requestAndValidateTokens`. -/
inductive RedirectStep where
  | notCallback
  | noClientState
  | authorizationError (desc : Option String)
  | missingStateOrCode
  | stateMismatch
  | exchange (code codeVerifier redirectUri nonce : String)
deriving DecidableEq, Repr

/-- The pre-exchange part of `OidcClient.handleRedirect`: parse the
callback URL, recover the persisted `ClientParams`, validate the
response against the stored state. -/
def handleRedirectStep (hasAnyParams : Bool) (state code error errDesc : Option String)
    (clientParams : Option ClientParams) : RedirectStep :=
  match parseRedirect hasAnyParams state code error errDesc with
  | none => .notCallback
  | some resp =>
    match clientParams with
    | none => .noClientState
    | some cp =>
      match validateAuthorizeResponse resp cp.state with
      | .error (.authorizationError d) => .authorizationError d
      | .error .missingStateOrCode => .missingStateOrCode
      | .error .stateMismatch => .stateMismatch
      | .ok c => .exchange c cp.codeVerifier cp.redirectUri cp.nonce

/-- A validated token response (`ValidatedTokenResponse` of
`IdaasClient.ts`). -/
structure ValidatedTokenResponse where
  tokenResponse : TokenResponse
  decodedIdToken : Claims
  encodedIdToken : String
deriving DecidableEq, Repr

/-- `parseAndSaveTokenResponse` (`helpers/token.ts` / `IdaasClient.ts`):
throws when no token params are stored; otherwise computes the expiry and
optional max-age expiry, deletes the token params, saves the identity
token record and appends the new access-token record.  `acrOf` models
`readAccessToken(access_token)?.acr`. -/
def parseAndSaveTokenResponse (authTimeOf : String → Option Int)
    (acrOf : String → Option String) (nowS : Int)
    (v : ValidatedTokenResponse) (s : Storage) : Except String Storage :=
  match s.tokenParams with
  | none => .error ("No token params stored, unable to parse")
  | some tp =>
    let authTime := authTimeOf v.tokenResponse.access_token
    let expiresAt := calculateEpochExpiry v.tokenResponse.expires_in authTime nowS
    let maxAgeExpiry :=
      match tp.maxAge with
      | some m => if m ≠ 0 then some (calculateEpochExpiry m authTime nowS) else none
      | none => none
    let newTok : AccessToken :=
      { accessToken := v.tokenResponse.access_token
        refreshToken := v.tokenResponse.refresh_token
        expiresAt := expiresAt
        audience := tp.audience
        scope := tp.scope
        maxAgeExpiry := maxAgeExpiry
        acr := acrOf v.tokenResponse.access_token }
    let s1 := removeTokenParams s
    .ok (saveAccessToken (saveIdToken s1 { encoded := v.encodedIdToken, decoded := v.decodedIdToken }) newTok)

/-- Outcome of a full `handleRedirect` call. -/
inductive RedirectResult where
  | notCallback
  | noClientState
  | authorizationError (desc : Option String)
  | missingStateOrCode
  | stateMismatch
  | exchangeFailed (e : String)
  | saveFailed (e : String)
  | success
deriving DecidableEq, Repr

/-- `OidcClient.handleRedirect` end to end; `exchangeOracle` is the
`requestAndValidateTokens` network call (code, verifier, redirect URI,
nonce), and the remaining oracles serve `parseAndSaveTokenResponse`. -/
def handleRedirect (exchangeOracle : String → String → String → String → Except String ValidatedTokenResponse)
    (authTimeOf : String → Option Int) (acrOf : String → Option String) (nowS : Int)
    (hasAnyParams : Bool) (state code error errDesc : Option String)
    (s : Storage) : RedirectResult × Storage :=
  match handleRedirectStep hasAnyParams state code error errDesc s.clientParams with
  | .notCallback => (.notCallback, s)
  | .noClientState => (.noClientState, s)
  | .authorizationError d => (.authorizationError d, s)
  | .missingStateOrCode => (.missingStateOrCode, s)
  | .stateMismatch => (.stateMismatch, s)
  | .exchange c cv ru n =>
    match exchangeOracle c cv ru n with
    | .error e => (.exchangeFailed e, s)
    | .ok v =>
      match parseAndSaveTokenResponse authTimeOf acrOf nowS v s with
      | .error e => (.saveFailed e, s)
      | .ok s2 => (.success, s2)

/-! ### RBA completion (`RbaClient` / `IdaasContext`) -/

/-- The authentication details a live `AuthenticationTransaction` exposes
through `getAuthenticationDetails()` (the transaction class itself only
forwards server state; each field may be absent mid-flow). -/
structure AuthDetails where
  idToken : Option String
  accessToken : Option String
  refreshToken : Option String
  scope : Option String
  audience : Option String
  expiresAt : Option Int
  maxAge : Option Int
deriving DecidableEq, Repr

/-- The slice of an RBA `AuthenticationResponse` the client logic
branches on. -/
structure AuthenticationResponse where
  authenticationCompleted : Bool
deriving DecidableEq, Repr

/-- The session context: the at-most-one live transaction and the
credential store (`IdaasContext`). -/
structure Ctx where
  authenticationTransaction : Option AuthDetails
  storage : Storage
deriving DecidableEq, Repr

def noTransactionError : String := "No authentication transaction in progress!"

/-- `IdaasContext.handleAuthenticationTransactionSuccess`: requires a
live transaction whose `idToken`, `accessToken`, `expiresAt` and `scope`
are all truthy, writes the identity-token record and one new access-token
record, then discards the transaction.  `decode` models `decodeJwt`. -/
def handleAuthenticationTransactionSuccess (decode : String → Claims) (nowS : Int)
    (c : Ctx) : Except String Ctx :=
  match c.authenticationTransaction with
  | none => .error noTransactionError
  | some tr =>
    if truthyStr tr.idToken && truthyStr tr.accessToken &&
        truthyInt tr.expiresAt && truthyStr tr.scope then
      match tr.idToken, tr.accessToken, tr.expiresAt, tr.scope with
      | some idTok, some acTok, some exp, some sc =>
        let maxAgeExpiry :=
          match tr.maxAge with
          | some m => if m ≠ 0 then some (calculateEpochExpiry m none nowS) else none
          | none => none
        let newTok : AccessToken :=
          { accessToken := acTok
            expiresAt := exp
            scope := sc
            refreshToken := tr.refreshToken
            audience := tr.audience
            maxAgeExpiry := maxAgeExpiry
            acr := none }
        let st := saveAccessToken (saveIdToken c.storage { encoded := idTok, decoded := decode idTok }) newTok
        .ok { authenticationTransaction := none, storage := st }
      | _, _, _, _ => .error ("Error retrieving tokens from transaction")
    else .error ("Error retrieving tokens from transaction")

/-- `RbaClient.submitChallenge`: requires a live transaction, submits
through the network oracle `call` (which returns the response together
with the transaction's updated details), and on
`authenticationCompleted` runs the success handler. -/
def submitChallenge (call : AuthDetails → AuthenticationResponse × AuthDetails)
    (decode : String → Claims) (nowS : Int) (c : Ctx) :
    Except String (AuthenticationResponse × Ctx) :=
  match c.authenticationTransaction with
  | none => .error noTransactionError
  | some tr =>
    let resp := (call tr).1
    let c1 : Ctx := { c with authenticationTransaction := some (call tr).2 }
    if resp.authenticationCompleted then
      (handleAuthenticationTransactionSuccess decode nowS c1).map (fun c2 => (resp, c2))
    else .ok (resp, c1)

/-- `RbaClient.poll`: same completion handling as `submitChallenge`, with
its own network oracle. -/
def poll (pollCall : AuthDetails → AuthenticationResponse × AuthDetails)
    (decode : String → Claims) (nowS : Int) (c : Ctx) :
    Except String (AuthenticationResponse × Ctx) :=
  match c.authenticationTransaction with
  | none => .error noTransactionError
  | some tr =>
    let resp := (pollCall tr).1
    let c1 : Ctx := { c with authenticationTransaction := some (pollCall tr).2 }
    if resp.authenticationCompleted then
      (handleAuthenticationTransactionSuccess decode nowS c1).map (fun c2 => (resp, c2))
    else .ok (resp, c1)

/-! ### UserInfo sub check (`IdaasClient.getUserInfo`) -/

/-- The final step of `IdaasClient.getUserInfo`: compare
`idToken?.decoded.sub` with the (validated or JSON-parsed) userinfo
claims' `sub` under JS strict equality on possibly-`undefined` strings;
return `null` on mismatch, the claims otherwise.  The preceding
network/validation steps deliver `claims` and are not modelled. -/
def storedSub (idToken : Option IdTokenRec) : Option String :=
  match idToken with
  | some it => it.decoded.sub
  | none => none

def getUserInfoSubCheck (idToken : Option IdTokenRec) (claims : Claims) : Option Claims :=
  if storedSub idToken ≠ claims.sub then none else some claims

/-! ### PKCE generation (`dist/IdaasClient.js`) -/

/-- The 66-character charset of `createRandomString`. -/
def charsetChars : List Char :=
  "0123456789ABCDEFGHIJKLMNOPQRSTUVWXYZabcdefghijklmnopqrstuvwxyz-_~.".data

/-- `createRandomString`: map each random byte `v` to
`charset[v % charset.length]`; the caller draws 43 bytes. -/
def createRandomString (bytes : List Nat) : List Char :=
  bytes.map (fun v => charsetChars.getD (v % 66) 'A')

/-- The base64 alphabet used by `btoa`. -/
def b64Chars : List Char :=
  "ABCDEFGHIJKLMNOPQRSTUVWXYZabcdefghijklmnopqrstuvwxyz0123456789+/".data

def b64Digit (n : Nat) : Char := b64Chars.getD n 'A'

/-- Index of a base64 character in the alphabet (its sextet value). -/
def b64Value (c : Char) : Nat := b64Chars.indexOf c

/-- `btoa` on a byte list: standard base64 with `=` padding. -/
def btoaBytes : List Nat → List Char
  | [] => []
  | [b0] => [b64Digit (b0 / 4), b64Digit (b0 % 4 * 16), '=', '=']
  | [b0, b1] => [b64Digit (b0 / 4), b64Digit (b0 % 4 * 16 + b1 / 16), b64Digit (b1 % 16 * 4), '=']
  | b0 :: b1 :: b2 :: rest =>
    b64Digit (b0 / 4) :: b64Digit (b0 % 4 * 16 + b1 / 16) ::
      b64Digit (b1 % 16 * 4 + b2 / 64) :: b64Digit (b2 % 64) :: btoaBytes rest

/-- Base64 decoding, inverse of `btoaBytes` on well-formed input. -/
def atobBytes : List Char → List Nat
  | c0 :: c1 :: c2 :: c3 :: rest =>
    if c2 = '=' ∧ c3 = '=' ∧ rest = [] then
      [b64Value c0 * 4 + b64Value c1 / 16]
    else if c3 = '=' ∧ rest = [] then
      [b64Value c0 * 4 + b64Value c1 / 16,
       b64Value c1 % 16 * 16 + b64Value c2 / 4]
    else
      (b64Value c0 * 4 + b64Value c1 / 16) ::
        (b64Value c1 % 16 * 16 + b64Value c2 / 4) ::
        (b64Value c2 % 4 * 64 + b64Value c3) :: atobBytes rest
  | _ => []

/-- `this.encode(value) = btoa(value)` of `dist/IdaasClient.js`, on the
character codes of an ASCII string. -/
def jsBtoa (s : List Char) : List Char := btoaBytes (s.map Char.toNat)

/-- `urlEncodeB64` / `bufferToBase64UrlEncoded`: base64 the bytes, then
replace `+` with `-`, `/` with `_` and drop `=`. -/
def bufferToBase64UrlEncoded (bytes : List Nat) : List Char :=
  (btoaBytes bytes).filterMap (fun c =>
    if c = '+' then some '-'
    else if c = '/' then some '_'
    else if c = '=' then none
    else some c)

/-- The four values `IdaasClient.authenticate` of `dist/IdaasClient.js`
derives before building the authorization URL. -/
structure PkceValues where
  state : List Char
  nonce : List Char
  codeVerifier : List Char
  codeChallenge : List Char
deriving DecidableEq, Repr

/-- The generation block of `authenticate`: `state` and `nonce` are
`btoa(createRandomString())` over independent 43-byte draws `r1`, `r2`;
`code_verifier` is `createRandomString()` over draw `r3`; the challenge
is `bufferToBase64UrlEncoded(sha256(code_verifier))` with `sha256`
supplied by the platform (`hash` oracle). -/
def authenticate (hash : List Char → List Nat) (r1 r2 r3 : List Nat) : PkceValues :=
  { state := jsBtoa (createRandomString r1)
    nonce := jsBtoa (createRandomString r2)
    codeVerifier := createRandomString r3
    codeChallenge := bufferToBase64UrlEncoded (hash (createRandomString r3)) }

/-- The RFC 7636 unreserved charset: ALPHA / DIGIT / `-` / `.` / `_` /
`~`. -/
def isUnreservedChar (c : Char) : Bool :=
  (('A' ≤ c && c ≤ 'Z') || ('a' ≤ c && c ≤ 'z') || ('0' ≤ c && c ≤ '9')) ||
    (c = '-' || c = '.' || c = '_' || c = '~')

/-! ### Concrete fixtures used by witnesses and counterexamples -/

/-- Userinfo claims without a `sub` (a response the JSON branch of
`getUserInfo` can produce). -/
def noSubClaims : Claims := { sub := none, extra := [] }

/-- An expired record that still holds a refresh token. -/
def staleRefreshable : AccessToken :=
  { accessToken := "old", refreshToken := some ("rt1"), scope := "a",
    audience := none, acr := none, expiresAt := 100, maxAgeExpiry := none }

/-- An expired refresh-holding record whose max-age expiry has also
passed. -/
def staleMaxAged : AccessToken :=
  { accessToken := "tokB", refreshToken := some ("rt2"), scope := "b",
    audience := none, acr := none, expiresAt := 0, maxAgeExpiry := some 10 }

/-- An unexpired refresh-holding record whose stored `maxAgeExpiry` is
the falsy value `0`. -/
def zeroMaxAge : AccessToken :=
  { accessToken := "tokC", refreshToken := some ("rt3"), scope := "c",
    audience := none, acr := none, expiresAt := 2000000000, maxAgeExpiry := some 0 }

/-- A valid (unexpired) record for the selection witnesses. -/
def freshRecord : AccessToken :=
  { accessToken := "tokA", refreshToken := none, scope := "a b",
    audience := some ("X"), acr := none, expiresAt := 2000000000, maxAgeExpiry := none }

/-- A refresh oracle that always succeeds with a fixed response. -/
def refreshOk : String → Except String TokenResponse :=
  fun _ => .ok { access_token := "new", refresh_token := some ("rt9"), expires_in := 3600 }

/-- A refresh oracle that always fails. -/
def refreshBoom : String → Except String TokenResponse :=
  fun _ => .error ("boom")

/-- A `readAccessToken` oracle that finds no claims. -/
def noClaimsOf : String → Option Int := fun _ => none

/-- Stored client flow state used by the redirect fixtures. -/
def cpEx : ClientParams :=
  { nonce := "n1", state := "good", codeVerifier := "ver", redirectUri := "https://app/cb" }

/-- Stored token params used by the redirect fixtures. -/
def tpEx : TokenParams := { audience := some ("X"), scope := "a openid", maxAge := none }

/-- Storage holding the redirect fixtures and nothing else. -/
def redirectStorage : Storage :=
  { accessTokens := [], idToken := none, clientParams := some cpEx, tokenParams := some tpEx }

/-- An exchange oracle returning a fixed validated token response. -/
def exchangeOk : String → String → String → String → Except String ValidatedTokenResponse :=
  fun _ _ _ _ =>
    .ok { tokenResponse := { access_token := "at1", refresh_token := none, expires_in := 300 }
          decodedIdToken := { sub := some ("alice"), extra := [] }
          encodedIdToken := "idtok1" }

/-- A `readAccessToken(...)?.acr` oracle finding nothing. -/
def noAcrOf : String → Option String := fun _ => none

/-- A complete transaction detail set for the RBA fixtures. -/
def trComplete : AuthDetails :=
  { idToken := some ("idtok2"), accessToken := some ("at2"), refreshToken := some ("rt4"),
    scope := some ("openid profile"), audience := some ("X"),
    expiresAt := some 1700001000, maxAge := none }

/-- An RBA network oracle whose response reports completion. -/
def callDone : AuthDetails → AuthenticationResponse × AuthDetails :=
  fun tr => ({ authenticationCompleted := true }, tr)

/-- A `decodeJwt` oracle. -/
def decodeEx : String → Claims := fun s => { sub := some s, extra := [] }

/-- A session context holding the complete transaction and empty
storage. -/
def ctxEx : Ctx :=
  { authenticationTransaction := some trComplete
    storage := { accessTokens := [], idToken := none, clientParams := none, tokenParams := none } }

/-- A SHA-256 oracle used only to instantiate the PKCE theorems. -/
def hashZero : List Char → List Nat := fun _ => []

/-- A 43-byte all-zero random draw. -/
def zeros43 : List Nat := List.replicate 43 0

/-- A 43-byte draw differing from `zeros43` in its last byte. -/
def almostZeros43 : List Nat := List.replicate 42 0 ++ [1]

/-- Userinfo claims carrying a `sub`. -/
def aliceClaims : Claims := { sub := some ("alice"), extra := [] }

/-- An expired record without a refresh token. -/
def expiredNoRefresh : AccessToken :=
  { accessToken := "tokD", refreshToken := none, scope := "d",
    audience := none, acr := none, expiresAt := 100, maxAgeExpiry := none }

/-- Storage holding only the expired refreshable record. -/
def storageStale : Storage :=
  { accessTokens := [staleRefreshable], idToken := none, clientParams := none, tokenParams := none }

/-- Storage mixing an expired no-refresh record with a refreshable one. -/
def storagePurge : Storage :=
  { accessTokens := [expiredNoRefresh, staleRefreshable], idToken := none,
    clientParams := none, tokenParams := none }

/-- Storage holding only the expired record with passed max-age expiry. -/
def storageMaxAged : Storage :=
  { accessTokens := [staleMaxAged], idToken := none, clientParams := none, tokenParams := none }

/-- Storage holding only the record with the falsy `maxAgeExpiry` of 0. -/
def storageZeroMaxAge : Storage :=
  { accessTokens := [zeroMaxAge], idToken := none, clientParams := none, tokenParams := none }

/-- Storage holding only the fresh record. -/
def storageFresh : Storage :=
  { accessTokens := [freshRecord], idToken := none, clientParams := none, tokenParams := none }

/-- The completion invariant of the RBA engine: the transaction is
discarded, exactly one access-token record was appended, an
identity-token record is stored, and any further submit or poll on the
same context fails with the no-transaction error. -/
def TokensWrittenOnce (c c2 : Ctx) : Prop :=
  c2.authenticationTransaction = none ∧
    (∃ r, c2.storage.accessTokens = c.storage.accessTokens ++ [r]) ∧
    (∃ idr, c2.storage.idToken = some idr) ∧
    (∀ call2 decode2 now2, submitChallenge call2 decode2 now2 c2 = .error noTransactionError) ∧
    (∀ pollCall2 decode2 now2, poll pollCall2 decode2 now2 c2 = .error noTransactionError)

/-- The access-token record the RBA fixture run writes. -/
def rbaTokenEx : AccessToken :=
  { accessToken := "at2", refreshToken := some ("rt4"), scope := "openid profile",
    audience := some ("X"), acr := none, expiresAt := 1700001000, maxAgeExpiry := none }

/-- The identity-token record the RBA fixture run writes. -/
def rbaIdRecEx : IdTokenRec :=
  { encoded := "idtok2", decoded := { sub := some ("idtok2"), extra := [] } }

/-- A completed RBA response. -/
def respDone : AuthenticationResponse := { authenticationCompleted := true }

/-- The context after the RBA fixture run completes. -/
def ctxAfterEx : Ctx :=
  { authenticationTransaction := none
    storage := { accessTokens := [rbaTokenEx], idToken := some rbaIdRecEx,
                 clientParams := none, tokenParams := none } }

/-- The access-token record the redirect fixture run writes. -/
def redirectTokenEx : AccessToken :=
  { accessToken := "at1", refreshToken := none, scope := "a openid",
    audience := some ("X"), acr := none, expiresAt := 1700000300, maxAgeExpiry := none }

/-- The storage after the successful redirect fixture run. -/
def finalRedirectStorage : Storage :=
  { accessTokens := [redirectTokenEx]
    idToken := some { encoded := "idtok1", decoded := { sub := some ("alice"), extra := [] } }
    clientParams := some cpEx
    tokenParams := none }

end Idaas

namespace Idaas

/-! ### General lemmas -/

theorem contains_iff_mem (l : List String) (a : String) : l.contains a = true ↔ a ∈ l :=
  List.elem_iff

theorem contains_append_single (acc : List String) (x a : String) :
    (acc ++ [x]).contains a = (acc.contains a || decide (a = x)) := by
  simp

theorem jsSetDedup_go (l : List String) : ∀ acc : List String,
    l.foldl (fun acc x => if acc.contains x then acc else acc ++ [x]) acc =
      acc ++ dedupFirst (l.filter (fun y => !(acc.contains y))) := by
  induction l with
  | nil => intro acc; simp [dedupFirst]
  | cons x xs ih =>
    intro acc
    rw [List.foldl_cons]
    by_cases hx : acc.contains x = true
    · rw [if_pos hx, ih acc]
      have hmem : x ∈ acc := List.elem_iff.mp hx
      have hfx : (x :: xs).filter (fun y => !(acc.contains y)) =
          xs.filter (fun y => !(acc.contains y)) := by
        simp [List.filter_cons, hmem]
      rw [hfx]
    · rw [if_neg hx, ih (acc ++ [x])]
      have hmem : x ∉ acc := fun hm => hx (List.elem_iff.mpr hm)
      have hfx : (x :: xs).filter (fun y => !(acc.contains y)) =
          x :: xs.filter (fun y => !(acc.contains y)) := by
        simp [List.filter_cons, hmem]
      rw [hfx]
      have hded : dedupFirst (x :: xs.filter (fun y => !(acc.contains y))) =
          x :: dedupFirst ((xs.filter (fun y => !(acc.contains y))).filter (fun y => y ≠ x)) := by
        simp [dedupFirst]
      rw [hded]
      have hfilter : xs.filter (fun y => !((acc ++ [x]).contains y)) =
          (xs.filter (fun y => !(acc.contains y))).filter (fun y => y ≠ x) := by
        rw [List.filter_filter]
        apply List.filter_congr
        intro a _
        rw [contains_append_single]
        by_cases hax : a = x
        · subst hax; simp
        · by_cases haacc : acc.contains a = true <;> simp [hax, haacc]
      rw [hfilter]
      simp

theorem jsSetDedup_eq_dedupFirst (l : List String) : jsSetDedup l = dedupFirst l := by
  have h := jsSetDedup_go l []
  simpa [jsSetDedup] using h

theorem mem_candidates (tokens : List AccessToken) (aud : Option String)
    (req : List String) (acrs : List String) (t : AccessToken) :
    t ∈ candidates tokens aud req acrs ↔
      t ∈ tokens ∧ t.audience = aud ∧ (∀ sc ∈ req, sc ∈ words t.scope) ∧
        (acrs ≠ [] → ∃ a, t.acr = some a ∧ a ≠ "" ∧ a ∈ acrs) := by
  unfold candidates
  by_cases hacr : acrs.isEmpty
  · rw [if_pos hacr]
    have hacrs : acrs = [] := List.isEmpty_iff.mp hacr
    subst hacrs
    simp only [List.mem_filter, hasAllScopes, List.all_eq_true, decide_eq_true_iff,
      ne_eq, not_true_eq_false, false_implies, and_true]
    constructor
    · rintro ⟨⟨h1, h2⟩, h3⟩
      exact ⟨h1, h2, fun sc h => List.elem_iff.mp (h3 sc h)⟩
    · rintro ⟨h1, h2, h3⟩
      exact ⟨⟨h1, h2⟩, fun sc h => List.elem_iff.mpr (h3 sc h)⟩
  · rw [if_neg hacr]
    have hacrs : acrs ≠ [] := fun h => hacr (by simp [h])
    simp only [List.mem_filter, hasAllScopes, List.all_eq_true, decide_eq_true_iff]
    constructor
    · rintro ⟨⟨⟨h1, h2⟩, h3⟩, h4⟩
      refine ⟨h1, h2, fun sc h => List.elem_iff.mp (h3 sc h), fun _ => ?_⟩
      cases hta : t.acr with
      | none => simp [acrMatches, hta] at h4
      | some a =>
        simp only [acrMatches, hta, Bool.and_eq_true, decide_eq_true_iff] at h4
        exact ⟨a, rfl, h4.1, List.elem_iff.mp h4.2⟩
    · rintro ⟨h1, h2, h3, h4⟩
      obtain ⟨a, hta, hane, ham⟩ := h4 hacrs
      refine ⟨⟨⟨h1, h2⟩, fun sc h => List.elem_iff.mpr (h3 sc h)⟩, ?_⟩
      simp only [acrMatches, hta, Bool.and_eq_true, decide_eq_true_iff]
      exact ⟨hane, List.elem_iff.mpr ham⟩

theorem selectedCandidate_spec (tokens : List AccessToken) (aud : Option String)
    (req : List String) (acrs : List String) (rt : AccessToken)
    (hsel : selectedCandidate tokens aud req acrs = some rt) :
    rt ∈ candidates tokens aud req acrs ∧
      ∀ u ∈ candidates tokens aud req acrs, scopeCount rt ≤ scopeCount u := by
  unfold selectedCandidate at hsel
  cases hs : sortTokens (candidates tokens aud req acrs) with
  | nil => rw [hs] at hsel; exact absurd hsel (by simp)
  | cons a tl =>
    rw [hs] at hsel
    have ha : a = rt := by simpa using hsel
    subst ha
    have hperm : (sortTokens (candidates tokens aud req acrs)).Perm
        (candidates tokens aud req acrs) := List.perm_insertionSort scopeLE _
    have hmem : a ∈ candidates tokens aud req acrs := by
      apply hperm.subset
      rw [hs]
      exact List.mem_cons_self a tl
    refine ⟨hmem, ?_⟩
    intro u hu
    have husort : u ∈ a :: tl := by
      rw [← hs]
      exact hperm.symm.subset hu
    have hsorted : List.Sorted scopeLE (a :: tl) := by
      rw [← hs]
      exact List.sorted_insertionSort scopeLE _
    rcases List.mem_cons.mp husort with h | h
    · rw [h]
    · exact List.rel_of_sorted_cons hsorted u h

/-! ### Claim theorems -/

/-- C7: `generateAuthorizationUrl` builds the scope parameter as the
requested scopes in their given order, then `"openid"` always, then
`"offline_access"` exactly when a refresh token is requested, with
duplicates removed keeping the first occurrence; in particular,
requesting `"profile email"` with refresh yields
`"profile email openid offline_access"`. -/
theorem C7_scope_construction :
    (∀ (scope : String) (useRefreshToken : Bool),
      usedScope scope useRefreshToken =
        String.intercalate (" ") (dedupFirst (scopeListRaw scope useRefreshToken))) ∧
    usedScope ("profile email") true = "profile email openid offline_access" := by
  constructor
  · intro scope useRefreshToken
    unfold usedScope
    rw [jsSetDedup_eq_dedupFirst]
  · decide

/-- C10 (amended): `getUserInfo` returns the userinfo claims exactly when
the possibly-absent `sub` of the stored ID token (absent when no ID token
is stored) equals the possibly-absent `sub` of the userinfo response, and
returns null exactly when the two differ; in particular, with no stored
ID token and a `sub`-bearing userinfo response, null is returned. -/
theorem C10_sub_check (idt : Option IdTokenRec) (claims : Claims) :
    (getUserInfoSubCheck idt claims = some claims ↔ storedSub idt = claims.sub) ∧
    (getUserInfoSubCheck idt claims = none ↔ storedSub idt ≠ claims.sub) ∧
    (∀ s, claims.sub = some s → idt = none → getUserInfoSubCheck idt claims = none) := by
  refine ⟨?_, ?_, ?_⟩
  · unfold getUserInfoSubCheck
    by_cases h : storedSub idt = claims.sub <;> simp [h]
  · unfold getUserInfoSubCheck
    by_cases h : storedSub idt = claims.sub <;> simp [h]
  · intro s hs hidt
    subst hidt
    unfold getUserInfoSubCheck
    rw [if_pos]
    rw [hs]
    simp [storedSub]

/-- C10 fails as stated: with no stored ID token and a userinfo response
that lacks a `sub` claim, `getUserInfo` returns the claims rather than
null, although the claim demands null whenever no ID token is stored. -/
theorem C10_no_sub_returns_claims :
    getUserInfoSubCheck none noSubClaims = some noSubClaims ∧
    getUserInfoSubCheck none noSubClaims ≠ none := by
  decide

/-- Instantiation of `C10_sub_check`: no stored ID token plus a
`sub`-bearing response yields null. -/
theorem C10_sub_check_witness : getUserInfoSubCheck none aliceClaims = none :=
  (C10_sub_check none aliceClaims).2.2 ("alice") rfl rfl

/-- C2 (amended): a parsed callback whose `state` differs from the stored
state never reaches the code-for-token exchange; `handleRedirect` throws
the provider authorization error when the callback carries an `error`
parameter (that check precedes the state comparison), and the
state-mismatch error otherwise. -/
theorem C2_state_mismatch (hasAny : Bool) (state code error errDesc : Option String)
    (cp : ClientParams) (resp : AuthorizeResponse) (st : String)
    (hp : parseRedirect hasAny state code error errDesc = some resp)
    (hst : resp.state = some st) (hne : st ≠ cp.state) :
    (∀ c cv ru n, handleRedirectStep hasAny state code error errDesc (some cp) ≠
        RedirectStep.exchange c cv ru n) ∧
    (truthyStr resp.error = true →
      handleRedirectStep hasAny state code error errDesc (some cp) =
        RedirectStep.authorizationError resp.error_description) ∧
    (truthyStr resp.error = false →
      handleRedirectStep hasAny state code error errDesc (some cp) =
        RedirectStep.stateMismatch) := by
  have hstep : handleRedirectStep hasAny state code error errDesc (some cp) =
      match validateAuthorizeResponse resp cp.state with
      | .error (.authorizationError d) => RedirectStep.authorizationError d
      | .error .missingStateOrCode => RedirectStep.missingStateOrCode
      | .error .stateMismatch => RedirectStep.stateMismatch
      | .ok c => RedirectStep.exchange c cp.codeVerifier cp.redirectUri cp.nonce := by
    unfold handleRedirectStep
    rw [hp]
  have hparse : resp.code = code ∧ resp.state = state ∧ resp.error = error ∧
      truthyStr state = true ∧ (truthyStr code || truthyStr error) = true := by
    unfold parseRedirect at hp
    by_cases h1 : hasAny
    · rw [if_neg (by simp [h1])] at hp
      by_cases h2 : truthyStr state = true
      · rw [if_neg (by simp [h2])] at hp
        by_cases h3 : (truthyStr code || truthyStr error) = true
        · rw [if_neg (by simp [h3])] at hp
          injection hp with hp
          rw [← hp]
          exact ⟨rfl, rfl, rfl, h2, h3⟩
        · rw [if_pos (by simp [h3])] at hp
          exact absurd hp (by simp)
      · rw [if_pos (by simp [h2])] at hp
        exact absurd hp (by simp)
    · rw [if_pos (by simp [h1])] at hp
      exact absurd hp (by simp)
  obtain ⟨hc, hs, he, hts, hor⟩ := hparse
  by_cases herr : truthyStr resp.error = true
  · have hval : validateAuthorizeResponse resp cp.state =
        .error (.authorizationError resp.error_description) := by
      unfold validateAuthorizeResponse
      rw [if_pos herr]
    rw [hstep, hval]
    refine ⟨fun c cv ru n => by simp, fun _ => rfl, fun hcon => ?_⟩
    rw [herr] at hcon
    simp at hcon
  · have herrf : truthyStr resp.error = false := Bool.eq_false_iff.mpr herr
    have hcode : truthyStr resp.code = true := by
      rw [hc]
      rw [he] at herrf
      rcases Bool.or_eq_true_iff.mp hor with h | h
      · exact h
      · rw [herrf] at h; cases h
    obtain ⟨cval, hcval⟩ : ∃ cval, resp.code = some cval := by
      cases hcc : resp.code with
      | none => rw [hcc] at hcode; cases hcode
      | some cval => exact ⟨cval, rfl⟩
    have hval : validateAuthorizeResponse resp cp.state = .error .stateMismatch := by
      unfold validateAuthorizeResponse
      rw [if_neg (by rw [herrf]; simp)]
      have htsr : truthyStr resp.state = true := by rw [hs]; exact hts
      rw [if_neg (by rw [hcode, htsr]; simp)]
      rw [hcval, hst]
      exact if_pos (fun hcontra => hne (hcontra.symm))
    rw [hstep, hval]
    refine ⟨fun c cv ru n => by simp, fun hcon => ?_, fun _ => rfl⟩
    rw [herrf] at hcon
    simp at hcon

/-- C2 fails as stated: a callback with mismatching state that also
carries an `error` parameter throws the provider's authorization error,
not the state-mismatch error (and still performs no exchange). -/
theorem C2_error_precedes_state_check :
    handleRedirectStep true (some ("evil")) none (some ("access_denied")) (some ("denied"))
        (some cpEx) = RedirectStep.authorizationError (some ("denied")) ∧
    RedirectStep.authorizationError (some ("denied")) ≠ RedirectStep.stateMismatch := by
  decide

/-- Instantiation of `C2_state_mismatch`: a code-bearing callback with a
wrong state ends in the state-mismatch error. -/
theorem C2_state_mismatch_witness :
    handleRedirectStep true (some ("evil")) (some ("abc")) none none (some cpEx) =
      RedirectStep.stateMismatch :=
  (C2_state_mismatch true (some ("evil")) (some ("abc")) none none cpEx
    { code := some ("abc"), state := some ("evil"), error := none, error_description := none }
    ("evil") rfl rfl (by decide)).2.2 rfl

/-- C8 (amended): every successful `handleRedirect` run writes the
identity-token record, appends exactly one new access-token record and
deletes the persisted token params (audience/scope/maxAge); the
`ClientFlowState` (nonce, state, codeVerifier, redirectUri) is *not*
deleted — it stays in storage unchanged. -/
theorem C8_redirect_success
    (exch : String → String → String → String → Except String ValidatedTokenResponse)
    (authTimeOf : String → Option Int) (acrOf : String → Option String) (nowS : Int)
    (hasAny : Bool) (state code error errDesc : Option String) (s s2 : Storage)
    (hrun : handleRedirect exch authTimeOf acrOf nowS hasAny state code error errDesc s =
      (RedirectResult.success, s2)) :
    (∃ idr, s2.idToken = some idr) ∧
    (∃ r, s2.accessTokens = s.accessTokens ++ [r]) ∧
    s2.tokenParams = none ∧
    s2.clientParams = s.clientParams := by
  unfold handleRedirect at hrun
  cases hstep : handleRedirectStep hasAny state code error errDesc s.clientParams <;>
    rw [hstep] at hrun <;> simp at hrun
  case exchange c cv ru n =>
    cases hex : exch c cv ru n <;> rw [hex] at hrun <;> simp at hrun
    case ok v =>
      cases hparse : parseAndSaveTokenResponse authTimeOf acrOf nowS v s <;>
        rw [hparse] at hrun <;> simp at hrun
      case ok s3 =>
        unfold parseAndSaveTokenResponse at hparse
        cases htp : s.tokenParams <;> rw [htp] at hparse <;> simp at hparse
        case some tp =>
          rw [← hrun, ← hparse]
          refine ⟨⟨_, rfl⟩, ⟨_, rfl⟩, rfl, rfl⟩

/-- C8 fails as stated: a successful `handleRedirect` run leaves the
stored `ClientFlowState` in place (only the token params are deleted). -/
theorem C8_client_state_not_deleted :
    (handleRedirect exchangeOk noClaimsOf noAcrOf 1700000000 true (some ("good"))
        (some ("code1")) none none redirectStorage).1 = RedirectResult.success ∧
    (handleRedirect exchangeOk noClaimsOf noAcrOf 1700000000 true (some ("good"))
        (some ("code1")) none none redirectStorage).2.clientParams = some cpEx := by
  exact ⟨rfl, rfl⟩

/-- Instantiation of `C8_redirect_success` on the concrete successful
run. -/
theorem C8_redirect_success_witness :
    finalRedirectStorage.tokenParams = none ∧
    finalRedirectStorage.clientParams = redirectStorage.clientParams :=
  ⟨(C8_redirect_success exchangeOk noClaimsOf noAcrOf 1700000000 true (some ("good"))
      (some ("code1")) none none redirectStorage finalRedirectStorage rfl).2.2.1,
   (C8_redirect_success exchangeOk noClaimsOf noAcrOf 1700000000 true (some ("good"))
      (some ("code1")) none none redirectStorage finalRedirectStorage rfl).2.2.2⟩

theorem handleSuccess_spec (decode : String → Claims) (nowS : Int) (c c2 : Ctx)
    (h : handleAuthenticationTransactionSuccess decode nowS c = .ok c2) :
    c2.authenticationTransaction = none ∧
    (∃ r, c2.storage.accessTokens = c.storage.accessTokens ++ [r]) ∧
    (∃ idr, c2.storage.idToken = some idr) := by
  unfold handleAuthenticationTransactionSuccess at h
  cases htr : c.authenticationTransaction <;> rw [htr] at h <;> simp at h
  case some tr =>
    split at h
    · cases hid : tr.idToken <;> cases hac : tr.accessToken <;>
        cases hexp : tr.expiresAt <;> cases hsc : tr.scope <;>
        rw [hid, hac, hexp, hsc] at h <;> simp at h
      rw [← h]
      exact ⟨rfl, ⟨_, rfl⟩, ⟨_, rfl⟩⟩
    · simp at h

theorem noTransaction_submit (call : AuthDetails → AuthenticationResponse × AuthDetails)
    (decode : String → Claims) (nowS : Int) (c : Ctx)
    (h : c.authenticationTransaction = none) :
    submitChallenge call decode nowS c = .error noTransactionError := by
  unfold submitChallenge
  rw [h]

theorem noTransaction_poll (pollCall : AuthDetails → AuthenticationResponse × AuthDetails)
    (decode : String → Claims) (nowS : Int) (c : Ctx)
    (h : c.authenticationTransaction = none) :
    poll pollCall decode nowS c = .error noTransactionError := by
  unfold poll
  rw [h]

theorem completion_map (decode : String → Claims) (nowS : Int) (cbase c1 : Ctx)
    (resp1 resp : AuthenticationResponse) (c2 : Ctx)
    (hst : c1.storage = cbase.storage)
    (h : (handleAuthenticationTransactionSuccess decode nowS c1).map
      (fun c3 => (resp1, c3)) = .ok (resp, c2)) : TokensWrittenOnce cbase c2 := by
  cases hh : handleAuthenticationTransactionSuccess decode nowS c1 <;>
    rw [hh] at h <;> simp [Except.map] at h
  case ok c3 =>
    obtain ⟨-, hc3⟩ := h
    obtain ⟨hta, ⟨r, hr⟩, ⟨idr, hid⟩⟩ := handleSuccess_spec decode nowS c1 c3 hh
    rw [hst] at hr
    rw [hc3] at hta hr hid
    refine ⟨hta, ⟨r, hr⟩, ⟨idr, hid⟩, ?_, ?_⟩
    · intro call2 decode2 now2
      exact noTransaction_submit call2 decode2 now2 c2 hta
    · intro pollCall2 decode2 now2
      exact noTransaction_poll pollCall2 decode2 now2 c2 hta

/-- C6: whenever an RBA `submitChallenge` or `poll` call returns with
`authenticationCompleted` true, exactly one new access-token record and
one identity-token record are written, the live transaction field is set
to `undefined`, and any further submit or poll on that context fails with
the no-transaction error (tokens cannot be written twice). -/
theorem C6_completion_once (call : AuthDetails → AuthenticationResponse × AuthDetails)
    (decode : String → Claims) (nowS : Int) (c : Ctx) (resp : AuthenticationResponse)
    (c2 : Ctx) :
    (submitChallenge call decode nowS c = .ok (resp, c2) →
      resp.authenticationCompleted = true → TokensWrittenOnce c c2) ∧
    (poll call decode nowS c = .ok (resp, c2) →
      resp.authenticationCompleted = true → TokensWrittenOnce c c2) := by
  constructor
  · intro h hc
    unfold submitChallenge at h
    cases htr : c.authenticationTransaction <;> rw [htr] at h <;> simp at h
    case some tr =>
      by_cases hcomp : (call tr).1.authenticationCompleted = true
      · rw [if_pos hcomp] at h
        exact completion_map decode nowS c
          { c with authenticationTransaction := some (call tr).2 }
          (call tr).1 resp c2 rfl h
      · rw [if_neg hcomp] at h
        simp at h
        obtain ⟨hresp, -⟩ := h
        rw [← hresp] at hc
        exact absurd hc hcomp
  · intro h hc
    unfold poll at h
    cases htr : c.authenticationTransaction <;> rw [htr] at h <;> simp at h
    case some tr =>
      by_cases hcomp : (call tr).1.authenticationCompleted = true
      · rw [if_pos hcomp] at h
        exact completion_map decode nowS c
          { c with authenticationTransaction := some (call tr).2 }
          (call tr).1 resp c2 rfl h
      · rw [if_neg hcomp] at h
        simp at h
        obtain ⟨hresp, -⟩ := h
        rw [← hresp] at hc
        exact absurd hc hcomp

/-- Instantiation of `C6_completion_once` on a concrete completed
submission. -/
theorem C6_completion_once_witness : TokensWrittenOnce ctxEx ctxAfterEx :=
  (C6_completion_once callDone decodeEx 1000 ctxEx respDone ctxAfterEx).1 rfl rfl

/-- C5 (amended): when the refresh-token grant performed inside
`getAccessToken` fails, the error propagates to the caller without any
silent fallback (even when fallback options are present), and the stale
expired record is *left in storage* — it is deleted and replaced only
when the refresh succeeds.  The refresh grant is only reached for a
truthy (non-empty) refresh token, mirroring `if (!refreshToken) throw`. -/
theorem C5_refresh_failure (refresh : String → Except String TokenResponse)
    (authTimeOf : String → Option Int) (nowMs : Int) (aud : Option String)
    (scope : String) (acrs : List String) (fb : Bool) (s : Storage)
    (rt : AccessToken) (rtok e : String)
    (hsel : selectedCandidate (removeUnusableTokens (Int.fdiv nowMs 1000) s).accessTokens
      aud (words scope) acrs = some rt)
    (hexp : ¬((rt.expiresAt - buffer) * 1000 > nowMs))
    (hrt : rt.refreshToken = some rtok)
    (hrtok : rtok ≠ "")
    (hfail : refresh rtok = .error e) :
    getAccessToken refresh authTimeOf nowMs aud scope acrs fb s =
      (GetTokenResult.refreshFailed e, removeUnusableTokens (Int.fdiv nowMs 1000) s) ∧
    rt ∈ (removeUnusableTokens (Int.fdiv nowMs 1000) s).accessTokens := by
  constructor
  · unfold getAccessToken
    simp only [hsel, if_neg hexp, hrt, if_neg hrtok, hfail]
  · have hmem := (selectedCandidate_spec _ aud (words scope) acrs rt hsel).1
    exact ((mem_candidates _ aud (words scope) acrs rt).mp hmem).1

/-- C5 fails as stated: after a failed refresh the stale record is still
in storage (the claim demands its deletion); the error does propagate. -/
theorem C5_stale_record_kept :
    (getAccessToken refreshBoom noClaimsOf 1000000 none ("a") [] true storageStale).1 =
      GetTokenResult.refreshFailed ("boom") ∧
    staleRefreshable ∈
      (getAccessToken refreshBoom noClaimsOf 1000000 none ("a") [] true storageStale).2.accessTokens := by
  decide

/-- Instantiation of `C5_refresh_failure` on the concrete stale record. -/
theorem C5_refresh_failure_witness :
    getAccessToken refreshBoom noClaimsOf 1000000 none ("a") [] true storageStale =
      (GetTokenResult.refreshFailed ("boom"),
        removeUnusableTokens (Int.fdiv 1000000 1000) storageStale) :=
  (C5_refresh_failure refreshBoom noClaimsOf 1000000 none ("a") [] true storageStale
    staleRefreshable ("rt1") ("boom") rfl (by decide) rfl (by decide) rfl).1

/-- C4 (amended): every stored record past `expiresAt − 15 s` without a
truthy refresh token (absent or empty, both falsy under
`!token.refreshToken`) is purged by the `removeUnusableTokens` pass that
opens `getAccessToken`, and any token value `getAccessToken` returns
directly comes from a surviving, unexpired record; a record with passed
expiry that holds a truthy (non-empty) refresh token survives the pass
provided its `maxAgeExpiry` branch does not fire (a passed, nonzero
`maxAgeExpiry` purges it even with a refresh token). -/
theorem C4_expiry_purge (nowS : Int) (s : Storage) (t : AccessToken) :
    (t ∈ s.accessTokens → nowS > t.expiresAt - buffer → truthyStr t.refreshToken = false →
      t ∉ (removeUnusableTokens nowS s).accessTokens) ∧
    (t ∈ s.accessTokens → truthyStr t.refreshToken = true → maxAgeRemovable nowS t = false →
      t ∈ (removeUnusableTokens nowS s).accessTokens) ∧
    (∀ (refresh : String → Except String TokenResponse) (authTimeOf : String → Option Int)
      (nowMs : Int) (aud : Option String) (scope : String) (acrs : List String)
      (fb : Bool) (a : String) (s2 : Storage),
      getAccessToken refresh authTimeOf nowMs aud scope acrs fb s =
          (GetTokenResult.token a, s2) →
        a ∈ ((removeUnusableTokens (Int.fdiv nowMs 1000) s).accessTokens.filter
            (fun u => decide ((u.expiresAt - buffer) * 1000 > nowMs))).map
          AccessToken.accessToken) := by
  refine ⟨?_, ?_, ?_⟩
  · intro hmem hpassed hnorefresh hcon
    have hfilter := (List.mem_filter.mp hcon).2
    have : unusable nowS t = true := by
      unfold unusable expiryRemovable
      rw [hnorefresh]
      simp [hpassed]
    rw [this] at hfilter
    cases hfilter
  · intro hmem hrefresh hmax
    apply List.mem_filter.mpr
    refine ⟨hmem, ?_⟩
    unfold unusable expiryRemovable
    rw [hmax, hrefresh]
    simp
  · intro refresh authTimeOf nowMs aud scope acrs fb a s2 hrun
    unfold getAccessToken at hrun
    cases hsel : selectedCandidate (removeUnusableTokens (Int.fdiv nowMs 1000) s).accessTokens
        aud (words scope) acrs
    case none =>
      simp only [hsel] at hrun
      by_cases hfb : fb <;> simp [hfb] at hrun
    case some rt =>
      simp only [hsel] at hrun
      by_cases hfresh : (rt.expiresAt - buffer) * 1000 > nowMs
      · rw [if_pos hfresh] at hrun
        simp at hrun
        obtain ⟨ha, -⟩ := hrun
        have hmem := (selectedCandidate_spec _ aud (words scope) acrs rt hsel).1
        have hmem2 := ((mem_candidates _ aud (words scope) acrs rt).mp hmem).1
        apply List.mem_map.mpr
        refine ⟨rt, List.mem_filter.mpr ⟨hmem2, by simp [hfresh]⟩, ha⟩
      · rw [if_neg hfresh] at hrun
        split at hrun
        · simp at hrun
        · split at hrun
          · simp at hrun
          · split at hrun
            · simp at hrun
            · simp at hrun

/-- C4 fails as stated: a record with passed expiry that holds a refresh
token is nevertheless purged when its (nonzero) `maxAgeExpiry` has also
passed, contradicting the claimed unconditional retention. -/
theorem C4_maxage_overrides_retention :
    (1000 : Int) > staleMaxAged.expiresAt - buffer ∧
    truthyStr staleMaxAged.refreshToken = true ∧
    staleMaxAged ∈ storageMaxAged.accessTokens ∧
    staleMaxAged ∉ (removeUnusableTokens 1000 storageMaxAged).accessTokens := by
  decide

/-- Instantiation of `C4_expiry_purge`: the expired no-refresh record is
purged while the refreshable one survives. -/
theorem C4_expiry_purge_witness :
    expiredNoRefresh ∉ (removeUnusableTokens 1000 storagePurge).accessTokens ∧
    staleRefreshable ∈ (removeUnusableTokens 1000 storagePurge).accessTokens :=
  ⟨(C4_expiry_purge 1000 storagePurge expiredNoRefresh).1 (by decide) (by decide) rfl,
   (C4_expiry_purge 1000 storagePurge staleRefreshable).2.1 (by decide) (by decide) (by decide)⟩

/-- C9 (amended): `removeUnusableTokens` (run at the start of every
`getAccessToken`) removes every stored record whose *nonzero*
`maxAgeExpiry` minus the 15-second buffer has passed, even when the
record holds a refresh token; consequently a record selected for use (and
hence eligible for refresh) never has a passed nonzero `maxAgeExpiry` —
such records are only deleted, never refreshed.  A stored `maxAgeExpiry`
of exactly `0` is falsy in JavaScript and escapes the check. -/
theorem C9_maxage_purge (nowS : Int) (s : Storage) :
    (∀ t ∈ s.accessTokens, ∀ m : Int, t.maxAgeExpiry = some m → m ≠ 0 → nowS > m - buffer →
      t ∉ (removeUnusableTokens nowS s).accessTokens) ∧
    (∀ (aud : Option String) (req acrs : List String) (rt : AccessToken),
      selectedCandidate (removeUnusableTokens nowS s).accessTokens aud req acrs = some rt →
      ∀ m : Int, rt.maxAgeExpiry = some m → m ≠ 0 → ¬(nowS > m - buffer)) := by
  constructor
  · intro t hmem m hmax hm0 hpassed hcon
    have hfilter := (List.mem_filter.mp hcon).2
    have : unusable nowS t = true := by
      unfold unusable maxAgeRemovable
      rw [hmax]
      simp [hm0, hpassed]
    rw [this] at hfilter
    cases hfilter
  · intro aud req acrs rt hsel m hmax hm0 hpassed
    have hmem := (selectedCandidate_spec _ aud req acrs rt hsel).1
    have hmem2 := ((mem_candidates _ aud req acrs rt).mp hmem).1
    have hfilter := (List.mem_filter.mp hmem2).2
    have : unusable nowS rt = true := by
      unfold unusable maxAgeRemovable
      rw [hmax]
      simp [hm0, hpassed]
    rw [this] at hfilter
    cases hfilter

/-- C9 fails as stated: a record carrying the `maxAgeExpiry` value `0`
(falsy in JavaScript) is retained by `removeUnusableTokens` although the
current time is far past `0 − 15`. -/
theorem C9_zero_maxage_retained :
    zeroMaxAge.maxAgeExpiry = some 0 ∧
    (1000 : Int) > 0 - buffer ∧
    zeroMaxAge ∈ (removeUnusableTokens 1000 storageZeroMaxAge).accessTokens := by
  decide

/-- Instantiation of `C9_maxage_purge`: the max-age-expired refreshable
record is purged. -/
theorem C9_maxage_purge_witness :
    staleMaxAged ∉ (removeUnusableTokens 1000 storageMaxAged).accessTokens :=
  (C9_maxage_purge 1000 storageMaxAged).1 staleMaxAged (by decide) 10 rfl
    (by decide) (by decide)

/-- C1 (amended): after the opening purge, `getAccessToken` considers
exactly the surviving records whose audience equals the requested one,
whose scope words contain every requested scope and — when `acrValues` is
non-empty — whose truthy (non-empty) `acr` is among the requested values;
the record it examines is a candidate of minimal scope cardinality
(stable ascending sort, first taken), and when that record is unexpired
its access token is returned unchanged.  When the examined record is
expired (with a refresh token), the freshly refreshed token is returned
instead of any stored record's access token. -/
theorem C1_candidate_selection (refresh : String → Except String TokenResponse)
    (authTimeOf : String → Option Int) (nowMs : Int) (aud : Option String)
    (scope : String) (acrs : List String) (fb : Bool) (s : Storage)
    (t rt : AccessToken) :
    (t ∈ candidates (removeUnusableTokens (Int.fdiv nowMs 1000) s).accessTokens
        aud (words scope) acrs ↔
      t ∈ (removeUnusableTokens (Int.fdiv nowMs 1000) s).accessTokens ∧
        t.audience = aud ∧ (∀ sc ∈ words scope, sc ∈ words t.scope) ∧
        (acrs ≠ [] → ∃ a, t.acr = some a ∧ a ≠ "" ∧ a ∈ acrs)) ∧
    (selectedCandidate (removeUnusableTokens (Int.fdiv nowMs 1000) s).accessTokens
        aud (words scope) acrs = some rt →
      rt ∈ candidates (removeUnusableTokens (Int.fdiv nowMs 1000) s).accessTokens
          aud (words scope) acrs ∧
      (∀ u ∈ candidates (removeUnusableTokens (Int.fdiv nowMs 1000) s).accessTokens
          aud (words scope) acrs, scopeCount rt ≤ scopeCount u) ∧
      ((rt.expiresAt - buffer) * 1000 > nowMs →
        getAccessToken refresh authTimeOf nowMs aud scope acrs fb s =
          (GetTokenResult.token rt.accessToken,
            removeUnusableTokens (Int.fdiv nowMs 1000) s))) := by
  constructor
  · exact mem_candidates _ aud (words scope) acrs t
  · intro hsel
    obtain ⟨hmem, hmin⟩ := selectedCandidate_spec _ aud (words scope) acrs rt hsel
    refine ⟨hmem, hmin, ?_⟩
    intro hfresh
    unfold getAccessToken
    simp only [hsel, if_pos hfresh]

/-- C1 fails as stated: when the minimal-scope candidate is expired but
refreshable, `getAccessToken` returns the freshly refreshed token, which
is not the access token of any candidate record. -/
theorem C1_refresh_returns_new_token :
    List.map AccessToken.accessToken
        (candidates (removeUnusableTokens (Int.fdiv 1000000 1000) storageStale).accessTokens
          none (words ("a")) []) = [("old" : String)] ∧
    (getAccessToken refreshOk noClaimsOf 1000000 none ("a") [] true storageStale).1 =
      GetTokenResult.refreshed ("new") ∧
    (("new" : String) ≠ "old") := by
  decide

/-- Instantiation of `C1_candidate_selection` on a fresh single-record
store. -/
theorem C1_candidate_selection_witness :
    getAccessToken refreshOk noClaimsOf 1700000000000 (some ("X")) ("a b") [] false
        storageFresh =
      (GetTokenResult.token ("tokA"),
        removeUnusableTokens (Int.fdiv 1700000000000 1000) storageFresh) :=
  ((C1_candidate_selection refreshOk noClaimsOf 1700000000000 (some ("X")) ("a b") [] false
      storageFresh freshRecord freshRecord).2 rfl).2.2 (by decide)

/-! ### Base64 lemmas for the PKCE claim -/

theorem b64Value_b64Digit : ∀ n, n < 64 → b64Value (b64Digit n) = n := by decide

theorem b64Digit_ne_pad : ∀ n, n < 64 → b64Digit n ≠ '=' := by decide

theorem atob_btoa : ∀ (l : List Nat), (∀ b ∈ l, b < 256) → atobBytes (btoaBytes l) = l
  | [] => fun _ => rfl
  | [b0] => fun h => by
    have hb0 : b0 < 256 := h b0 (by simp)
    show atobBytes [b64Digit (b0 / 4), b64Digit (b0 % 4 * 16), '=', '='] = [b0]
    unfold atobBytes
    rw [if_pos ⟨rfl, rfl, rfl⟩]
    rw [b64Value_b64Digit (b0 / 4) (by omega), b64Value_b64Digit (b0 % 4 * 16) (by omega)]
    simp only [List.cons.injEq, and_true]
    omega
  | [b0, b1] => fun h => by
    have hb0 : b0 < 256 := h b0 (by simp)
    have hb1 : b1 < 256 := h b1 (by simp)
    show atobBytes [b64Digit (b0 / 4), b64Digit (b0 % 4 * 16 + b1 / 16),
      b64Digit (b1 % 16 * 4), '='] = [b0, b1]
    unfold atobBytes
    rw [if_neg (fun hcon => b64Digit_ne_pad (b1 % 16 * 4) (by omega) hcon.1)]
    rw [if_pos ⟨rfl, rfl⟩]
    rw [b64Value_b64Digit (b0 / 4) (by omega), b64Value_b64Digit (b0 % 4 * 16 + b1 / 16) (by omega),
      b64Value_b64Digit (b1 % 16 * 4) (by omega)]
    simp only [List.cons.injEq, and_true]
    omega
  | b0 :: b1 :: b2 :: rest => fun h => by
    have hb0 : b0 < 256 := h b0 (by simp)
    have hb1 : b1 < 256 := h b1 (by simp)
    have hb2 : b2 < 256 := h b2 (by simp)
    have htail : ∀ b ∈ rest, b < 256 := fun b hb => h b (by simp [hb])
    have hrec := atob_btoa rest htail
    show atobBytes (b64Digit (b0 / 4) :: b64Digit (b0 % 4 * 16 + b1 / 16) ::
      b64Digit (b1 % 16 * 4 + b2 / 64) :: b64Digit (b2 % 64) :: btoaBytes rest) =
      b0 :: b1 :: b2 :: rest
    unfold atobBytes
    rw [if_neg (fun hcon => b64Digit_ne_pad (b1 % 16 * 4 + b2 / 64) (by omega) hcon.1)]
    rw [if_neg (fun hcon => b64Digit_ne_pad (b2 % 64) (by omega) hcon.1)]
    rw [b64Value_b64Digit (b0 / 4) (by omega), b64Value_b64Digit (b0 % 4 * 16 + b1 / 16) (by omega),
      b64Value_b64Digit (b1 % 16 * 4 + b2 / 64) (by omega), b64Value_b64Digit (b2 % 64) (by omega)]
    rw [hrec]
    simp only [List.cons.injEq, and_true]
    refine ⟨by omega, by omega, by omega⟩

theorem charset_codes_small : ∀ c ∈ charsetChars, c.toNat < 256 := by decide

theorem charset_unreserved : ∀ c ∈ charsetChars, isUnreservedChar c = true := by decide

theorem charset_length : charsetChars.length = 66 := by decide

theorem createRandomString_subset (bytes : List Nat) :
    ∀ c ∈ createRandomString bytes, c ∈ charsetChars := by
  intro c hc
  obtain ⟨v, hv, hcv⟩ := List.mem_map.mp hc
  have hlt : v % 66 < charsetChars.length := by
    rw [charset_length]
    exact Nat.mod_lt v (by omega)
  rw [← hcv, List.getD_eq_get charsetChars 'A' hlt]
  exact List.get_mem charsetChars (v % 66) hlt

theorem toNat_inj (a b : Char) (h : a.toNat = b.toNat) : a = b := by
  have ha := Char.ofNat_toNat a
  have hb := Char.ofNat_toNat b
  rw [← ha, ← hb, h]

theorem jsBtoa_inj (s1 s2 : List Char)
    (h1 : ∀ c ∈ s1, c.toNat < 256) (h2 : ∀ c ∈ s2, c.toNat < 256)
    (heq : jsBtoa s1 = jsBtoa s2) : s1 = s2 := by
  have e1 := atob_btoa (s1.map Char.toNat) (by
    intro b hb
    obtain ⟨c, hc, hcb⟩ := List.mem_map.mp hb
    rw [← hcb]
    exact h1 c hc)
  have e2 := atob_btoa (s2.map Char.toNat) (by
    intro b hb
    obtain ⟨c, hc, hcb⟩ := List.mem_map.mp hb
    rw [← hcb]
    exact h2 c hc)
  unfold jsBtoa at heq
  have hmap : s1.map Char.toNat = s2.map Char.toNat := by
    rw [← e1, ← e2, heq]
  exact List.map_injective_iff.mpr (fun a b => toNat_inj a b) hmap

/-- C3 (amended): every generated PKCE set has
`codeChallenge = base64url(sha256(codeVerifier))`, a verifier of exactly
43 characters (hence within the RFC 7636 bound of 43–128) drawn from the
unreserved charset, and the generated `state` and `nonce` differ whenever
the two underlying 43-byte random draws yield different random strings
(the source performs no inequality check, so equal draws yield equal
values). -/
theorem C3_pkce_generation (hash : List Char → List Nat) (r1 r2 r3 : List Nat)
    (h3 : r3.length = 43) :
    (authenticate hash r1 r2 r3).codeChallenge =
        bufferToBase64UrlEncoded (hash (authenticate hash r1 r2 r3).codeVerifier) ∧
    43 ≤ (authenticate hash r1 r2 r3).codeVerifier.length ∧
    (authenticate hash r1 r2 r3).codeVerifier.length ≤ 128 ∧
    (∀ c ∈ (authenticate hash r1 r2 r3).codeVerifier, isUnreservedChar c = true) ∧
    (createRandomString r1 ≠ createRandomString r2 →
      (authenticate hash r1 r2 r3).state ≠ (authenticate hash r1 r2 r3).nonce) := by
  have hlen : (authenticate hash r1 r2 r3).codeVerifier.length = 43 := by
    simp [authenticate, createRandomString, h3]
  refine ⟨rfl, by omega, by omega, ?_, ?_⟩
  · intro c hc
    exact charset_unreserved c (createRandomString_subset r3 c hc)
  · intro hne hcon
    apply hne
    apply jsBtoa_inj (createRandomString r1) (createRandomString r2)
    · intro c hc
      exact charset_codes_small c (createRandomString_subset r1 c hc)
    · intro c hc
      exact charset_codes_small c (createRandomString_subset r2 c hc)
    · exact hcon

/-- C3 fails as stated: nothing forces the state and nonce apart — when
the two random draws coincide (here the all-zero draw), the generated
state and nonce are equal, contradicting the claimed inequality. -/
theorem C3_equal_draws_equal_state_nonce :
    (authenticate hashZero zeros43 zeros43 zeros43).state =
      (authenticate hashZero zeros43 zeros43 zeros43).nonce := rfl

/-- Instantiation of `C3_pkce_generation` on concrete distinct draws. -/
theorem C3_pkce_generation_witness :
    43 ≤ (authenticate hashZero zeros43 almostZeros43 zeros43).codeVerifier.length ∧
    (authenticate hashZero zeros43 almostZeros43 zeros43).codeVerifier.length ≤ 128 ∧
    (authenticate hashZero zeros43 almostZeros43 zeros43).state ≠
      (authenticate hashZero zeros43 almostZeros43 zeros43).nonce :=
  ⟨(C3_pkce_generation hashZero zeros43 almostZeros43 zeros43 (by decide)).2.1,
   (C3_pkce_generation hashZero zeros43 almostZeros43 zeros43 (by decide)).2.2.1,
   (C3_pkce_generation hashZero zeros43 almostZeros43 zeros43 (by decide)).2.2.2.2 (by decide)⟩

end Idaas
